import Mathlib

/-!
Verification of the checkpoint conversion layer and the bottom-up relay
orchestrator of the ipc-agent repository.

The Rust sources are shallowly embedded: machine integers become `Nat`/`Int`
with explicit reductions modulo `2 ^ w` where the source casts, byte buffers
become `List Nat` (each entry a byte value), and fallible or panicking code
returns `Except ConvError`.  A Rust panic (e.g. `copy_from_slice` with
mismatched lengths, `U256::as_u128` on an oversized value, `unimplemented!`)
is modelled by the distinguished error `ConvError.panicked`, kept separate
from reported `anyhow` errors, which are modelled by `ConvError.err` and the
context-wrapping `ConvError.wrap`.

External library semantics embedded here and relied on:
`primitive_types::U256` implements `FromStr` by hexadecimal parsing (with an
optional `0x` first and at most 64 hex digits), `U256::from_dec_str` parses
decimal failing on overflow past `2 ^ 256`, `U256::as_u128`/`as_u64` panic on
overflow, `Display` for `U256` and `BigInt` prints decimal,
`<[u8]>::copy_from_slice` panics when the lengths differ,
`Address::new_delegated` rejects sub-addresses longer than 54 bytes, and
`Address::from_bytes` for the secp256k1 protocol requires a 20-byte payload.
-/

namespace IpcAgent

/-- Outcome tags for fallible embedded code.  `panicked` models a Rust panic,
`err` a reported `anyhow` error, `wrap` an error wrapped with extra context
(`map_err` with an `anyhow!` message in the source). -/
inductive ConvError where
  | panicked : ConvError
  | err : String → ConvError
  | wrap : String → ConvError → ConvError
deriving DecidableEq, Repr

/-- Embeds `map_err` with an `anyhow!` context message. -/
def wrapErr {α : Type} (msg : String) : Except ConvError α → Except ConvError α
  | .ok v => .ok v
  | .error e => .error (.wrap msg e)

/-- Big-endian byte encoding of `n` on `k` bytes (low bytes of `n` kept),
as produced by `to_be_bytes` and by ABI word encoding in the source. -/
def natToBeBytes : Nat → Nat → List Nat
  | 0, _ => []
  | k + 1, n => natToBeBytes k (n / 256) ++ [n % 256]

/-- Big-endian interpretation of a byte list, as done by `from_be_bytes`
and by ABI word decoding in the source. -/
def beToNat (l : List Nat) : Nat := l.foldl (fun a b => a * 256 + b) 0

/-- Zero right-padding of a dynamic `bytes` ABI payload to a multiple of
32 bytes, as done by `ethers::abi::encode`. -/
def abiPad (l : List Nat) : List Nat :=
  l ++ List.replicate ((32 - l.length % 32) % 32) 0

/-- Embeds `ethers::abi::encode(&[Token::Tuple(vec![Token::Uint(namespace),
Token::Uint(len), Token::Bytes(subaddress)])])`: offset word to the dynamic
tuple, the two uint words, the offset word to the bytes payload inside the
tuple, the bytes length word, then the zero-padded bytes. -/
def encodeDelegatedTuple (ns : Nat) (sub : List Nat) : List Nat :=
  natToBeBytes 32 32 ++ natToBeBytes 32 ns ++ natToBeBytes 32 sub.length ++
    natToBeBytes 32 96 ++ natToBeBytes 32 sub.length ++ abiPad sub

/-- Read one 32-byte ABI word at byte offset `pos`, failing when the data is
too short, as the `ethers::abi::decode` slice reads do. -/
def readWord (bytes : List Nat) (pos : Nat) : Except ConvError Nat :=
  if pos + 32 ≤ bytes.length then .ok (beToNat ((bytes.drop pos).take 32))
  else .error (.err "abi decode: not enough data")

/-- Embeds `ethers::abi::decode(&[ParamType::Tuple(vec![Uint, Uint, Bytes])], bytes)`
followed by the three `pop`/`into_*` steps of `bytes_to_fvm_addr`: returns
(namespace word, length word, raw bytes). -/
def decodeDelegatedTuple (bytes : List Nat) :
    Except ConvError (Nat × Nat × List Nat) := do
  let o ← readWord bytes 0
  let ns ← readWord bytes o
  let ln ← readWord bytes (o + 32)
  let boff ← readWord bytes (o + 64)
  let bl ← readWord bytes (o + boff)
  if o + boff + 32 + bl ≤ bytes.length then
    .ok (ns, ln, (bytes.drop (o + boff + 32)).take bl)
  else .error (.err "abi decode: not enough data")

/-- Embeds `fvm_shared::address::Payload`: the payload of a native FVM address. -/
inductive Payload where
  | id : Nat → Payload
  | secp256k1 : List Nat → Payload
  | actor : List Nat → Payload
  | bls : List Nat → Payload
  | delegated : Nat → List Nat → Payload
deriving DecidableEq, Repr

/-- Embeds `Address::protocol() as u8` for each payload kind. -/
def Payload.protocol : Payload → Nat
  | .id _ => 0
  | .secp256k1 _ => 1
  | .actor _ => 2
  | .bls _ => 3
  | .delegated _ _ => 4

/-- Embeds `Address::new_delegated(namespace, subaddress)`: fails when the
sub-address exceeds the maximum sub-address length (54 bytes). -/
def new_delegated (ns : Nat) (sub : List Nat) : Except ConvError Payload :=
  if sub.length ≤ 54 then .ok (.delegated ns sub)
  else .error (.err "invalid payload length")

/-- Embeds `Address::from_bytes(&[[1u8], bytes].concat())`: a secp256k1 address
requires exactly a 20-byte payload. -/
def address_from_bytes_secp (bytes : List Nat) : Except ConvError Payload :=
  if bytes.length = 20 then .ok (.secp256k1 bytes)
  else .error (.err "invalid payload length")

/-- Embeds `bytes_to_fvm_addr` (conversion.rs): protocol 1 rebuilds a secp256k1
address from the raw bytes; protocol 4 ABI-decodes the delegated tuple,
converts the length with `as_u128` and the namespace with `as_u64` (both
panic on overflow), checks the recorded length against the raw bytes, and
calls `new_delegated`; every other protocol is a reported error. -/
def bytes_to_fvm_addr (protocol : Nat) (bytes : List Nat) :
    Except ConvError Payload :=
  if protocol = 1 then address_from_bytes_secp bytes
  else if protocol = 4 then do
    let (ns, ln, raw) ← decodeDelegatedTuple bytes
    if 2 ^ 128 ≤ ln then .error .panicked
    else if 2 ^ 64 ≤ ns then .error .panicked
    else if ln ≠ raw.length then .error (.err "bytes len not match")
    else new_delegated ns raw
  else .error (.err "address not support now")

/-- Embeds `addr_payload_to_bytes` (conversion.rs): secp256k1 payloads pass through
raw, delegated payloads are ABI-encoded as the (namespace, length, bytes)
tuple, and every other payload kind hits `unimplemented!` — a panic. -/
def addr_payload_to_bytes : Payload → Except ConvError (List Nat)
  | .secp256k1 v => .ok v
  | .delegated d_ns d_sub => .ok (encodeDelegatedTuple d_ns d_sub)
  | _ => .error .panicked

/-- Embeds `subnet_contract::FvmAddress`: protocol tag plus raw payload bytes. -/
structure FvmAddress where
  addr_type : Nat
  payload : List Nat
deriving DecidableEq, Repr

/-- Embeds `From<Address> for subnet_contract::FvmAddress` (conversion.rs):
records the protocol tag and the `addr_payload_to_bytes` payload.  The Rust
impl is `From`, but it can panic through `addr_payload_to_bytes`. -/
def fvmAddressFromAddress (value : Payload) : Except ConvError FvmAddress := do
  let p ← addr_payload_to_bytes value
  .ok { addr_type := value.protocol, payload := p }

/-- Embeds `TryFrom<subnet_contract::FvmAddress> for Address` (conversion.rs). -/
def addressFromFvmAddress (value : FvmAddress) : Except ConvError Payload :=
  bytes_to_fvm_addr value.addr_type value.payload

/-- Little-endian decimal digits of `n`, computed with explicit fuel so the
kernel can evaluate it; equals `Nat.digits 10 n` whenever `n ≤ fuel`. -/
def decDigitsGo : Nat → Nat → List Nat
  | _, 0 => []
  | 0, _ + 1 => []
  | fuel + 1, n + 1 => (n + 1) % 10 :: decDigitsGo fuel ((n + 1) / 10)

/-- Decimal character codes of a natural number, most significant first,
as produced by `Display` on `BigInt` and `U256`. -/
def decChars (n : Nat) : List Nat :=
  if n = 0 then [48] else (decDigitsGo n n).reverse.map (fun d => d + 48)

/-- Decimal character codes of a `BigInt` (`TokenAmount::atto().to_string()`):
a leading minus sign (code 45) when negative. -/
def intDecChars (i : Int) : List Nat :=
  if i < 0 then 45 :: decChars i.natAbs else decChars i.toNat

/-- The digit loop of `U256::from_dec_str`: rejects non-digit characters and
fails with an overflow error as soon as the accumulator would pass
`2 ^ 256`. -/
def fromDecStrGo : Nat → List Nat → Except ConvError Nat
  | acc, [] => .ok acc
  | acc, c :: cs =>
    if c < 48 ∨ 57 < c then .error (.err "invalid character")
    else if 2 ^ 256 ≤ acc * 10 + (c - 48) then .error (.err "invalid length")
    else fromDecStrGo (acc * 10 + (c - 48)) cs

/-- Embeds `U256::from_dec_str`. -/
def from_dec_str (chars : List Nat) : Except ConvError Nat := fromDecStrGo 0 chars

/-- The pure value accumulated by the decimal digit loops, used to state
their correctness. -/
def valueFold (acc : Nat) (cs : List Nat) : Nat :=
  cs.foldl (fun a c => a * 10 + (c - 48)) acc

/-- One hexadecimal character of `U256`'s `FromStr` implementation. -/
def hexDigitVal (c : Nat) : Except ConvError Nat :=
  if 48 ≤ c ∧ c ≤ 57 then .ok (c - 48)
  else if 97 ≤ c ∧ c ≤ 102 then .ok (c - 87)
  else if 65 ≤ c ∧ c ≤ 70 then .ok (c - 55)
  else .error (.err "invalid hex character")

/-- Embeds `U256::from_str` (primitive-types): HEXADECIMAL parsing — strips an
optional `0x`, rejects strings of more than 64 hex characters, then
interprets the characters base 16. -/
def u256FromStrHex (chars : List Nat) : Except ConvError Nat :=
  let stripped := if chars.take 2 = [48, 120] then chars.drop 2 else chars
  if 64 < stripped.length then .error (.err "invalid string length")
  else stripped.foldlM (fun acc c => do
    let d ← hexDigitVal c
    pure (acc * 16 + d)) 0

/-- Embeds `fil_to_eth_amount` (conversion.rs): renders the atto amount in decimal
and parses it with `U256::from_dec_str`. -/
def fil_to_eth_amount (amount : Int) : Except ConvError Nat :=
  from_dec_str (intDecChars amount)

/-- Digit loop of `BigInt::from_str`: arbitrary precision, no overflow. -/
def bigNatFromDecGo : Nat → List Nat → Except ConvError Nat
  | acc, [] => .ok acc
  | acc, c :: cs =>
    if c < 48 ∨ 57 < c then .error (.err "invalid digit")
    else bigNatFromDecGo (acc * 10 + (c - 48)) cs

/-- Embeds `BigInt::from_str`: optional leading minus sign, then decimal digits. -/
def bigIntFromDecChars (chars : List Nat) : Except ConvError Int :=
  match chars with
  | c :: rest =>
    if c = 45 then (bigNatFromDecGo 0 rest).map (fun n => -(n : Int))
    else (bigNatFromDecGo 0 chars).map (fun n => (n : Int))
  | [] => (bigNatFromDecGo 0 chars).map (fun n => (n : Int))

/-- Embeds `eth_to_fil_amount` (conversion.rs): renders the `U256` in decimal and
parses it back with `BigInt::from_str`, then `TokenAmount::from_atto`. -/
def eth_to_fil_amount (amount : Nat) : Except ConvError Int :=
  bigIntFromDecChars (decChars amount)

/-- Embeds `U256::as_u128`: panics when the value does not fit in 128 bits. -/
def u256_as_u128 (v : Nat) : Except ConvError Nat :=
  if v < 2 ^ 128 then .ok v else .error .panicked

/-- Embeds `epoch as u64` on an `i64`: two's-complement reinterpretation. -/
def i64ToU64 (e : Int) : Nat := (e % (2 : Int) ^ 64).toNat

/-- Embeds `epoch as ChainEpoch` on a `u64`: two's-complement reinterpretation. -/
def u64ToI64 (n : Nat) : Int :=
  if n < 2 ^ 63 then (n : Int) else (n : Int) - 2 ^ 64

/-- Embeds `ipc_sdk::subnet_id::SubnetID`: root id plus the route of child
addresses. -/
structure SubnetID where
  root : Nat
  children : List Payload
deriving DecidableEq, Repr

/-- Embeds `subnet_contract::SubnetID`: root id plus a route of 20-byte EVM
addresses. -/
structure EvmSubnetID where
  root : Nat
  route : List (List Nat)
deriving DecidableEq, Repr

/-- Modelled from the spec: `agent_subnet_to_evm_addresses`
(src/manager/evm/manager.rs, not under src/) converts every hop of the
subnet path to its 20-byte EVM address — per the spec this succeeds exactly
when each hop is representable as a 20-byte address (a delegated EVM-style
address whose sub-address is the 20 raw bytes) and is loss-free. -/
def payloadToEvmAddress : Payload → Except ConvError (List Nat)
  | .delegated 10 sub =>
    if sub.length = 20 then .ok sub
    else .error (.err "invalid evm address length")
  | _ => .error (.err "address provided is not an evm address")

/-- Modelled from the spec: route conversion of
`agent_subnet_to_evm_addresses`, hop by hop. -/
def agent_subnet_to_evm_addresses (subnet : SubnetID) :
    Except ConvError (List (List Nat)) :=
  subnet.children.mapM payloadToEvmAddress

/-- Embeds `TryFrom<&SubnetID> for subnet_contract::SubnetID` (conversion.rs). -/
def subnetIdToEvm (subnet : SubnetID) : Except ConvError EvmSubnetID := do
  let route ← agent_subnet_to_evm_addresses subnet
  .ok { root := subnet.root, route }

/-- Embeds `ethers_address_to_fil_address` (conversion.rs): formats the 20-byte EVM
address as hex, parses it as an `EthAddress` and wraps it as a delegated
address under the EAM actor namespace 10 — the identity on the 20 bytes. -/
def ethers_address_to_fil_address (addr : List Nat) : Except ConvError Payload :=
  .ok (.delegated 10 addr)

/-- Embeds `TryFrom<subnet_contract::SubnetID> for SubnetID` (conversion.rs). -/
def evmSubnetIdToNative (value : EvmSubnetID) : Except ConvError SubnetID := do
  let children ← value.route.mapM ethers_address_to_fil_address
  .ok { root := value.root, children }

/-- Embeds `ipc_sdk::address::IPCAddress`. -/
structure IPCAddress where
  subnet_id : SubnetID
  raw_address : Payload
deriving DecidableEq, Repr

/-- Embeds `subnet_contract::Ipcaddress`. -/
structure EvmIpcaddress where
  subnet_id : EvmSubnetID
  raw_address : FvmAddress
deriving DecidableEq, Repr

/-- Embeds `TryFrom<IPCAddress> for subnet_contract::Ipcaddress` (conversion.rs). -/
def ipcAddressToEvm (value : IPCAddress) : Except ConvError EvmIpcaddress := do
  let subnet_id ← subnetIdToEvm value.subnet_id
  let raw_address ← fvmAddressFromAddress value.raw_address
  .ok { subnet_id, raw_address }

/-- Embeds `TryFrom<subnet_contract::Ipcaddress> for IPCAddress` (conversion.rs):
the address is converted first, then the subnet id, then `IPCAddress::new`. -/
def evmIpcaddressToNative (value : EvmIpcaddress) : Except ConvError IPCAddress := do
  let addr ← addressFromFvmAddress value.raw_address
  let subnet ← evmSubnetIdToNative value.subnet_id
  .ok { subnet_id := subnet, raw_address := addr }

/-- Embeds `ipc_gateway::StorableMsg` (native). -/
structure StorableMsg where
  from_ : IPCAddress
  to_ : IPCAddress
  method : Nat
  params : List Nat
  value : Int
  nonce : Nat
deriving DecidableEq, Repr

/-- Embeds `subnet_contract::StorableMsg`: the method is a 4-byte big-endian tag,
the value a `U256`. -/
structure EvmStorableMsg where
  from_ : EvmIpcaddress
  to_ : EvmIpcaddress
  value : Nat
  nonce : Nat
  method : List Nat
  params : List Nat
deriving DecidableEq, Repr

/-- Embeds `TryFrom<StorableMsg> for subnet_contract::StorableMsg` (conversion.rs):
value through `fil_to_eth_amount` first, then both addresses, and
`method: (value.method as u32).to_be_bytes()` — the low 32 bits of the
native method number, big-endian. -/
def nativeStorableMsgToEvm (value : StorableMsg) : Except ConvError EvmStorableMsg := do
  let msg_value ← fil_to_eth_amount value.value
  let from_ ← wrapErr "cannot convert from ipc address" (ipcAddressToEvm value.from_)
  let to_ ← wrapErr "cannot convert to ipc address" (ipcAddressToEvm value.to_)
  .ok { from_, to_, value := msg_value, nonce := value.nonce,
        method := natToBeBytes 4 (value.method % 2 ^ 32), params := value.params }

/-- Embeds `TryFrom<subnet_contract::StorableMsg> for StorableMsg` (conversion.rs):
`method: u32::from_be_bytes(value.method) as MethodNum` and
`value: TokenAmount::from_atto(value.value.as_u128())`. -/
def evmStorableMsgToNative (value : EvmStorableMsg) : Except ConvError StorableMsg := do
  let from_ ← evmIpcaddressToNative value.from_
  let to_ ← evmIpcaddressToNative value.to_
  let v ← u256_as_u128 value.value
  .ok { from_, to_, method := beToNat value.method, params := value.params,
        value := (v : Int), nonce := value.nonce }

/-- Embeds `ipc_gateway::CrossMsg` (native). -/
structure CrossMsg where
  wrapped : Bool
  msg : StorableMsg
deriving DecidableEq, Repr

/-- Embeds `subnet_contract::CrossMsg`. -/
structure EvmCrossMsg where
  wrapped : Bool
  message : EvmStorableMsg
deriving DecidableEq, Repr

/-- Embeds `TryFrom<CrossMsg> for subnet_contract::CrossMsg` (conversion.rs). -/
def crossMsgToEvm (value : CrossMsg) : Except ConvError EvmCrossMsg := do
  let message ← wrapErr "cannot convert storable msg" (nativeStorableMsgToEvm value.msg)
  .ok { wrapped := value.wrapped, message }

/-- Embeds `TryFrom<subnet_contract::CrossMsg> for CrossMsg` (conversion.rs). -/
def evmCrossMsgToNative (value : EvmCrossMsg) : Except ConvError CrossMsg := do
  let msg ← evmStorableMsgToNative value.message
  .ok { wrapped := value.wrapped, msg }

/-- Embeds `ipc_gateway::checkpoint::BatchCrossMsgs` (native): optional message
list plus aggregate fee (atto amount). -/
structure BatchCrossMsgs where
  cross_msgs : Option (List CrossMsg)
  fee : Int
deriving DecidableEq, Repr

/-- Embeds `NativeChildCheck` (checkpoint/bottomup.rs). -/
structure NativeChildCheck where
  source : SubnetID
  checks : List (List Nat)
deriving DecidableEq, Repr

/-- Embeds `subnet_contract::ChildCheck`: checks are 32-byte arrays. -/
structure EvmChildCheck where
  source : EvmSubnetID
  checks : List (List Nat)
deriving DecidableEq, Repr

/-- The `vec_to_array` closure of `TryFrom<NativeChildCheck>`
(conversion.rs): hashes longer than 32 bytes keep only their first
32 bytes; then `copy_from_slice` into a zero-initialized 32-byte buffer,
which PANICS unless the slice is exactly 32 bytes long. -/
def vec_to_array (v : List Nat) : Except ConvError (List Nat) :=
  let bytes := if 32 < v.length then v.take 32 else v
  if bytes.length = 32 then .ok bytes else .error .panicked

/-- Embeds `TryFrom<NativeChildCheck> for subnet_contract::ChildCheck`
(conversion.rs): the checks are converted (possibly panicking) before the
source subnet id. -/
def nativeChildCheckToEvm (value : NativeChildCheck) : Except ConvError EvmChildCheck := do
  let checks ← value.checks.mapM vec_to_array
  let source ← subnetIdToEvm value.source
  .ok { source, checks }

/-- Embeds `TryFrom<subnet_contract::ChildCheck> for NativeChildCheck`
(conversion.rs). -/
def evmChildCheckToNative (value : EvmChildCheck) : Except ConvError NativeChildCheck := do
  let source ← evmSubnetIdToNative value.source
  .ok { source, checks := value.checks }

/-- Embeds `NativeBottomUpCheckpoint` (checkpoint/bottomup.rs). -/
structure NativeBottomUpCheckpoint where
  source : SubnetID
  proof : Option (List Nat)
  epoch : Int
  prev_check : Option (List Nat)
  children : List NativeChildCheck
  cross_msgs : BatchCrossMsgs
  sig : List Nat
deriving DecidableEq, Repr

/-- Embeds `subnet_contract::BottomUpCheckpoint`. -/
structure EvmBottomUpCheckpoint where
  source : EvmSubnetID
  epoch : Nat
  fee : Nat
  cross_msgs : List EvmCrossMsg
  children : List EvmChildCheck
  prev_hash : List Nat
  proof : List Nat
deriving DecidableEq, Repr

/-- The prev-hash block of `TryFrom<NativeBottomUpCheckpoint>`
(conversion.rs lines 92-95): a zero-initialized 32-byte buffer, overwritten
by `copy_from_slice` when `prev_check` is present — a panic unless the
present value is exactly 32 bytes. -/
def prevHashBytes (pc : Option (List Nat)) : Except ConvError (List Nat) :=
  match pc with
  | some v => if v.length = 32 then .ok v else .error .panicked
  | none => .ok (List.replicate 32 0)

/-- Embeds `TryFrom<NativeBottomUpCheckpoint> for subnet_contract::BottomUpCheckpoint`
(conversion.rs): cross messages, then children, then the prev-hash
`copy_from_slice` (panics unless a present `prev_check` is exactly
32 bytes; absent becomes the zero 32 bytes), an absent proof becomes empty
bytes, then the source subnet id, the epoch cast to `u64`, and the fee via
`U256::from_str` — the HEX parse — of the decimal atto string. -/
def nativeCheckpointToEvm (value : NativeBottomUpCheckpoint) :
    Except ConvError EvmBottomUpCheckpoint := do
  let cross_msgs ← (value.cross_msgs.cross_msgs.getD []).mapM
    (fun i => wrapErr "cannot convert cross msg" (crossMsgToEvm i))
  let children ← value.children.mapM
    (fun i => wrapErr "cannot convert child check" (nativeChildCheckToEvm i))
  let prev_hash ← prevHashBytes value.prev_check
  let proof := (value.proof).getD []
  let source ← subnetIdToEvm value.source
  let fee ← u256FromStrHex (intDecChars value.cross_msgs.fee)
  .ok { source, epoch := i64ToU64 value.epoch, fee, cross_msgs, children,
        prev_hash, proof }

/-- Embeds `TryFrom<subnet_contract::BottomUpCheckpoint> for NativeBottomUpCheckpoint`
(conversion.rs): children, then cross messages, then the source subnet id;
the proof and prev-hash always become `some`, the signature always empty,
and the fee goes through `U256::as_u128` (panics from `2 ^ 128` up). -/
def evmCheckpointToNative (value : EvmBottomUpCheckpoint) :
    Except ConvError NativeBottomUpCheckpoint := do
  let children ← value.children.mapM evmChildCheckToNative
  let cross_msgs ← value.cross_msgs.mapM
    (fun i => wrapErr "cannot convert cross msg" (evmCrossMsgToNative i))
  let source ← evmSubnetIdToNative value.source
  let fee ← u256_as_u128 value.fee
  .ok { source, proof := some value.proof, epoch := u64ToI64 value.epoch,
        prev_check := some value.prev_hash, children,
        cross_msgs := { cross_msgs := some cross_msgs, fee := (fee : Int) },
        sig := [] }

/-- The four `BottomUpHandler` primitives plus the vote-membership query
(checkpoint/bottomup.rs), modelled as oracles: each call is a pure function
returning the chain handler's reply. -/
structure BottomUpHandler where
  checkpoint_template : Int → Except ConvError NativeBottomUpCheckpoint
  populate_proof : NativeBottomUpCheckpoint → Except ConvError NativeBottomUpCheckpoint
  populate_prev_hash : NativeBottomUpCheckpoint → SubnetID → Int →
    Except ConvError NativeBottomUpCheckpoint
  submit : Payload → NativeBottomUpCheckpoint → Except ConvError Int
  has_voted : SubnetID → Int → Payload → Except ConvError Bool

/-- Embeds `BottomUpManager` (checkpoint/bottomup.rs): frozen metadata (period and
subnet ids) plus the two handlers. -/
structure BottomUpManager where
  period : Int
  parentId : SubnetID
  childId : SubnetID
  parent_handler : BottomUpHandler
  child_handler : BottomUpHandler

/-- One observed handler call of `submit_checkpoint`, with its arguments. -/
inductive CallEvent where
  | templateCall : Int → CallEvent
  | proofCall : NativeBottomUpCheckpoint → CallEvent
  | prevHashCall : NativeBottomUpCheckpoint → SubnetID → Int → CallEvent
  | submitCall : Payload → NativeBottomUpCheckpoint → CallEvent
deriving DecidableEq, Repr

/-- Embeds `BottomUpManager::submit_checkpoint` (checkpoint/bottomup.rs),
instrumented with the list of handler calls it makes, in order.  The
control flow is a line-by-line translation: `checkpoint_template` on the
child handler, `populate_proof` on the child handler, `populate_prev_hash`
on the parent handler with the child subnet id and `epoch - period`, then
`submit` on the parent handler whose error alone is wrapped with the
"cannot submit bottom up checkpoint" context; each `?` aborts. -/
def BottomUpManager.submit_checkpoint (mgr : BottomUpManager) (epoch : Int)
    (validator : Payload) : Except ConvError Unit × List CallEvent :=
  match mgr.child_handler.checkpoint_template epoch with
  | .error e => (.error e, [.templateCall epoch])
  | .ok template =>
    match mgr.child_handler.populate_proof template with
    | .error e => (.error e, [.templateCall epoch, .proofCall template])
    | .ok template2 =>
      let prev_epoch := epoch - mgr.period
      match mgr.parent_handler.populate_prev_hash template2 mgr.childId prev_epoch with
      | .error e => (.error e,
          [.templateCall epoch, .proofCall template,
           .prevHashCall template2 mgr.childId prev_epoch])
      | .ok template3 =>
        match mgr.parent_handler.submit validator template3 with
        | .error e => (.error (.wrap "cannot submit bottom up checkpoint" e),
            [.templateCall epoch, .proofCall template,
             .prevHashCall template2 mgr.childId prev_epoch,
             .submitCall validator template3])
        | .ok _ => (.ok (),
            [.templateCall epoch, .proofCall template,
             .prevHashCall template2 mgr.childId prev_epoch,
             .submitCall validator template3])

/-- Embeds `BottomUpManager::should_submit_in_epoch` (checkpoint/bottomup.rs):
queries `has_voted` on the parent handler for the child subnet and returns
its negation; a query failure is wrapped with context. -/
def BottomUpManager.should_submit_in_epoch (mgr : BottomUpManager)
    (validator : Payload) (epoch : Int) : Except ConvError Bool :=
  match mgr.parent_handler.has_voted mgr.childId epoch validator with
  | .ok has_voted => .ok (!has_voted)
  | .error e => .error (.wrap "cannot check if validator has voted in epoch" e)


/-- The 20-byte sub-address of the spec's address round-trip vector,
`0x1a79385ead0e873fe0c441c034636d3edf7014cc`. -/
def addrVectorSub : List Nat :=
  [0x1a, 0x79, 0x38, 0x5e, 0xad, 0x0e, 0x87, 0x3f, 0xe0, 0xc4,
   0x41, 0xc0, 0x34, 0x63, 0x6d, 0x3e, 0xdf, 0x70, 0x14, 0xcc]

/-- A root-only subnet identity (empty route). -/
def rootSubnet : SubnetID := { root := 0, children := [] }

/-- A 20-byte secp256k1 test address. -/
def secpAddr : Payload := .secp256k1 (List.replicate 20 1)

/-- An IPC address at the root subnet with the secp256k1 test address. -/
def ipcV : IPCAddress := { subnet_id := rootSubnet, raw_address := secpAddr }

/-- A native checkpoint that is empty except for an aggregate fee of
10 atto: the concrete input on which the fee round trip is evaluated. -/
def feeTenCheckpoint : NativeBottomUpCheckpoint :=
  { source := rootSubnet, proof := none, epoch := 0, prev_check := none,
    children := [], cross_msgs := { cross_msgs := none, fee := 10 }, sig := [] }

/-- A native child check carrying one 1-byte hash. -/
def shortHashChildCheck : NativeChildCheck :=
  { source := rootSubnet, checks := [[170]] }

/-- A native checkpoint whose present previous-checkpoint reference is only
31 bytes long. -/
def shortPrevCheckpoint : NativeBottomUpCheckpoint :=
  { source := rootSubnet, proof := none, epoch := 0,
    prev_check := some (List.replicate 31 0),
    children := [], cross_msgs := { cross_msgs := none, fee := 0 }, sig := [] }

/-- A trivial native checkpoint used by the orchestrator witnesses. -/
def trivialNative : NativeBottomUpCheckpoint :=
  { source := rootSubnet, proof := none, epoch := 0, prev_check := none,
    children := [], cross_msgs := { cross_msgs := none, fee := 0 }, sig := [] }

/-- A trivial EVM checkpoint (zero fee, empty children and messages). -/
def trivialEvm : EvmBottomUpCheckpoint :=
  { source := { root := 0, route := [] }, epoch := 0, fee := 0,
    cross_msgs := [], children := [], prev_hash := List.replicate 32 0,
    proof := [7] }

/-- A handler whose every call succeeds: the template is `trivialNative`,
proof and prev-hash population return their input unchanged, submission
reports inclusion at epoch 0, and no validator has voted. -/
def okHandler : BottomUpHandler :=
  { checkpoint_template := fun _ => .ok trivialNative,
    populate_proof := fun c => .ok c,
    populate_prev_hash := fun c _ _ => .ok c,
    submit := fun _ _ => .ok 0,
    has_voted := fun _ _ _ => .ok false }

/-- A concrete manager over `okHandler` with period 100. -/
def okManager : BottomUpManager :=
  { period := 100, parentId := rootSubnet, childId := { root := 0, children := [] },
    parent_handler := okHandler, child_handler := okHandler }


/-- A concrete native cross message with method number 7. -/
def msgV : StorableMsg :=
  { from_ := ipcV, to_ := ipcV, method := 7, params := [], value := 0, nonce := 0 }

/-- The expected Runtime B form of `msgV`. -/
def msgVEvm : EvmStorableMsg :=
  { from_ := { subnet_id := { root := 0, route := [] },
               raw_address := { addr_type := 1, payload := List.replicate 20 1 } },
    to_ := { subnet_id := { root := 0, route := [] },
             raw_address := { addr_type := 1, payload := List.replicate 20 1 } },
    value := 0, nonce := 0, method := [0, 0, 0, 7], params := [] }

/-- The expected native form of `msgVEvm`. -/
def msgVBack : StorableMsg :=
  { from_ := { subnet_id := { root := 0, children := [] }, raw_address := secpAddr },
    to_ := { subnet_id := { root := 0, children := [] }, raw_address := secpAddr },
    method := 7, params := [], value := 0, nonce := 0 }

/-- A native checkpoint with a present proof and a present 32-byte
previous-checkpoint reference. -/
def goodPrevCheckpoint : NativeBottomUpCheckpoint :=
  { source := rootSubnet, proof := some [1, 2], epoch := 0,
    prev_check := some (List.replicate 32 5), children := [],
    cross_msgs := { cross_msgs := none, fee := 0 }, sig := [] }

/-- The expected Runtime B form of `goodPrevCheckpoint`. -/
def goodPrevEvm : EvmBottomUpCheckpoint :=
  { source := { root := 0, route := [] }, epoch := 0, fee := 0,
    cross_msgs := [], children := [], prev_hash := List.replicate 32 5,
    proof := [1, 2] }

/-- The expected native form of `trivialEvm`. -/
def trivialEvmBack : NativeBottomUpCheckpoint :=
  { source := { root := 0, children := [] }, proof := some [7], epoch := 0,
    prev_check := some (List.replicate 32 0), children := [],
    cross_msgs := { cross_msgs := some [], fee := 0 }, sig := [] }

end IpcAgent

namespace IpcAgent

theorem natToBeBytes_length (k n : Nat) : (natToBeBytes k n).length = k := by
  induction k generalizing n with
  | zero => rfl
  | succ k ih => simp [natToBeBytes, ih]

theorem beToNat_append_last (l : List Nat) (b : Nat) :
    beToNat (l ++ [b]) = 256 * beToNat l + b := by
  simp [beToNat, List.foldl_append, Nat.mul_comm]

theorem beToNat_natToBeBytes (k n : Nat) :
    beToNat (natToBeBytes k n) = n % 256 ^ k := by
  induction k generalizing n with
  | zero => simp [natToBeBytes, beToNat, Nat.mod_one]
  | succ k ih =>
    rw [natToBeBytes, beToNat_append_last, ih, Nat.pow_succ, Nat.mul_comm (256 ^ k) 256,
      Nat.mod_mul]
    ring

theorem beToNat_natToBeBytes_of_lt {k n : Nat} (h : n < 256 ^ k) :
    beToNat (natToBeBytes k n) = n := by
  rw [beToNat_natToBeBytes, Nat.mod_eq_of_lt h]

theorem ok_bind {α β : Type} (a : α) (f : α → Except ConvError β) :
    (Except.ok a : Except ConvError α) >>= f = f a := rfl

theorem error_bind {α β : Type} (e : ConvError) (f : α → Except ConvError β) :
    (Except.error e : Except ConvError α) >>= f = .error e := rfl

theorem readWord_here (w rest : List Nat) (hw : w.length = 32) :
    readWord (w ++ rest) 0 = .ok (beToNat w) := by
  have hlen : (w ++ rest).length = 32 + rest.length := by simp [hw]
  have hcond : 0 + 32 ≤ (w ++ rest).length := by omega
  rw [readWord, if_pos hcond, List.drop_zero, ← hw, List.take_left]

theorem readWord_skip (w l : List Nat) (pos : Nat) (hw : w.length = 32) :
    readWord (w ++ l) (32 + pos) = readWord l pos := by
  rw [readWord, readWord]
  have hlen : (w ++ l).length = 32 + l.length := by simp [hw]
  have hdrop : (w ++ l).drop (32 + pos) = l.drop pos := by
    rw [← List.drop_drop, ← hw, List.drop_left]
  by_cases h : pos + 32 ≤ l.length
  · rw [if_pos (by omega), if_pos h, hdrop]
  · rw [if_neg (by omega), if_neg h]

theorem drop_skip32 (w l : List Nat) (n : Nat) (hw : w.length = 32) :
    (w ++ l).drop (32 + n) = l.drop n := by
  rw [← List.drop_drop, ← hw, List.drop_left]

/-- Decoding inverts encoding for the delegated-address ABI tuple: the
decoder recovers the namespace word, the length word and exactly the
sub-address bytes that the encoder laid down. -/
theorem decodeDelegatedTuple_encode (ns : Nat) (sub : List Nat)
    (hns : ns < 2 ^ 256) (hlen : sub.length < 2 ^ 256) :
    decodeDelegatedTuple (encodeDelegatedTuple ns sub) =
      .ok (ns, sub.length, sub) := by
  have h256 : (256 : Nat) ^ 32 = 2 ^ 256 := by norm_num
  have hw : ∀ n : Nat, (natToBeBytes 32 n).length = 32 := fun n => natToBeBytes_length 32 n
  have hv : ∀ n : Nat, n < 2 ^ 256 → beToNat (natToBeBytes 32 n) = n := by
    intro n hn
    exact beToNat_natToBeBytes_of_lt (by rw [h256]; exact hn)
  set w0 := natToBeBytes 32 32 with hw0
  set w1 := natToBeBytes 32 ns with hw1
  set w2 := natToBeBytes 32 sub.length with hw2
  set w3 := natToBeBytes 32 96 with hw3
  set enc := encodeDelegatedTuple ns sub with henc
  have henc' : enc = w0 ++ (w1 ++ (w2 ++ (w3 ++ (w2 ++ abiPad sub)))) := by
    simp [henc, encodeDelegatedTuple, hw0, hw1, hw2, hw3]
  have s0 : readWord enc 0 = .ok 32 := by
    rw [henc', readWord_here _ _ (hw 32), hv 32 (by norm_num)]
  have s1 : readWord enc 32 = .ok ns := by
    rw [henc', show (32 : Nat) = 32 + 0 by rfl, readWord_skip _ _ _ (hw 32),
      readWord_here _ _ (hw ns), hv ns hns]
  have s2 : readWord enc 64 = .ok sub.length := by
    rw [henc', show (64 : Nat) = 32 + (32 + 0) by rfl, readWord_skip _ _ _ (hw 32),
      readWord_skip _ _ _ (hw ns), readWord_here _ _ (hw sub.length), hv sub.length hlen]
  have s3 : readWord enc 96 = .ok 96 := by
    rw [henc', show (96 : Nat) = 32 + (32 + (32 + 0)) by rfl, readWord_skip _ _ _ (hw 32),
      readWord_skip _ _ _ (hw ns), readWord_skip _ _ _ (hw sub.length),
      readWord_here _ _ (hw 96), hv 96 (by norm_num)]
  have s4 : readWord enc 128 = .ok sub.length := by
    rw [henc', show (128 : Nat) = 32 + (32 + (32 + (32 + 0))) by rfl,
      readWord_skip _ _ _ (hw 32), readWord_skip _ _ _ (hw ns),
      readWord_skip _ _ _ (hw sub.length), readWord_skip _ _ _ (hw 96),
      readWord_here _ _ (hw sub.length), hv sub.length hlen]
  have hdrop : enc.drop 160 = sub ++ List.replicate ((32 - sub.length % 32) % 32) 0 := by
    rw [henc', show (160 : Nat) = 32 + (32 + (32 + (32 + (32 + 0)))) by rfl,
      drop_skip32 _ _ _ (hw 32), drop_skip32 _ _ _ (hw ns), drop_skip32 _ _ _ (hw sub.length),
      drop_skip32 _ _ _ (hw 96), drop_skip32 _ _ _ (hw sub.length), List.drop_zero, abiPad]
  have hlen' : enc.length = 160 + sub.length + (32 - sub.length % 32) % 32 := by
    rw [henc']
    simp [abiPad, hw0, hw1, hw2, hw3, natToBeBytes_length]
    omega
  rw [decodeDelegatedTuple, s0, ok_bind, s1, ok_bind]
  norm_num
  rw [s2, ok_bind, s3, ok_bind]
  norm_num
  rw [s4, ok_bind, if_pos (by omega), hdrop, List.take_left]


/-- C3: for every delegated address (any namespace under `2 ^ 64`, any
constructible sub-address, i.e. at most 54 bytes), converting it to the ABI
tuple form (namespace, sub-address length, raw sub-address bytes) and back
yields the identical native address. -/
theorem delegated_address_roundtrip (d_ns : Nat) (sub : List Nat)
    (hns : d_ns < 2 ^ 64) (hlen : sub.length ≤ 54) :
    (fvmAddressFromAddress (.delegated d_ns sub) >>= addressFromFvmAddress)
      = .ok (.delegated d_ns sub) := by
  have h1 : addr_payload_to_bytes (Payload.delegated d_ns sub)
      = .ok (encodeDelegatedTuple d_ns sub) := rfl
  rw [fvmAddressFromAddress, h1, ok_bind, ok_bind, addressFromFvmAddress]
  show bytes_to_fvm_addr 4 (encodeDelegatedTuple d_ns sub) = _
  rw [bytes_to_fvm_addr, if_neg (by decide), if_pos rfl,
    decodeDelegatedTuple_encode d_ns sub (hns.trans (by norm_num))
      (lt_of_le_of_lt hlen (by norm_num)), ok_bind]
  show (if 2 ^ 128 ≤ sub.length then _ else _) = _
  rw [if_neg (by omega), if_neg (by omega), if_neg (by simp), new_delegated,
    if_pos hlen]

/-- C3 witness: the spec's concrete vector — namespace 10 with the 20-byte
sub-address `0x1a79385ead0e873fe0c441c034636d3edf7014cc` — round-trips to
the identical native address. -/
theorem delegated_address_roundtrip_vector :
    addrVectorSub.length = 20 ∧
    (fvmAddressFromAddress (.delegated 10 addrVectorSub) >>= addressFromFvmAddress)
      = .ok (.delegated 10 addrVectorSub) :=
  ⟨by decide, delegated_address_roundtrip 10 addrVectorSub (by decide) (by decide)⟩

/-- C6 counterexample: converting an id-kind native address to the Runtime B
form hits `unimplemented!` — a panic, not a reported unsupported-protocol
error — so the claim fails in the native-to-EVM direction. -/
theorem unsupported_forward_conversion_panics :
    fvmAddressFromAddress (Payload.id 5) = .error .panicked ∧
    ConvError.panicked ≠ ConvError.err "address not support now" :=
  ⟨rfl, by decide⟩

/-- C6 amended: in the EVM-to-native direction every protocol tag other than
secp256k1 (1) and delegated (4) fails with the reported
"address not support now" error; in the native-to-EVM direction every
payload kind other than secp256k1 and delegated panics (`unimplemented!`)
instead of reporting an error. -/
theorem unsupported_protocol_error (proto : Nat) (bytes : List Nat) (p : Payload)
    (h1 : proto ≠ 1) (h4 : proto ≠ 4)
    (hp1 : p.protocol ≠ 1) (hp4 : p.protocol ≠ 4) :
    bytes_to_fvm_addr proto bytes = .error (.err "address not support now") ∧
    addr_payload_to_bytes p = .error .panicked := by
  refine ⟨by rw [bytes_to_fvm_addr, if_neg h1, if_neg h4], ?_⟩
  cases p with
  | id n => rfl
  | secp256k1 b => exact absurd rfl hp1
  | actor b => rfl
  | bls b => rfl
  | delegated a b => exact absurd rfl hp4

/-- C6 witness: protocol tag 0 (id) on empty bytes is a reported
unsupported-protocol error backwards, and the id payload panics forwards. -/
theorem unsupported_protocol_error_witness :
    bytes_to_fvm_addr 0 [] = .error (.err "address not support now") ∧
    addr_payload_to_bytes (Payload.id 0) = .error .panicked :=
  unsupported_protocol_error 0 [] (Payload.id 0)
    (by decide) (by decide) (by decide) (by decide)


theorem valueFold_nil (acc : Nat) : valueFold acc [] = acc := rfl

theorem valueFold_cons (acc c : Nat) (cs : List Nat) :
    valueFold acc (c :: cs) = valueFold (acc * 10 + (c - 48)) cs := rfl

theorem valueFold_ge (cs : List Nat) (acc : Nat) : acc ≤ valueFold acc cs := by
  induction cs generalizing acc with
  | nil => exact Nat.le_refl acc
  | cons c cs ih =>
    rw [valueFold_cons]
    have h := ih (acc * 10 + (c - 48))
    omega

theorem fromDecStrGo_ok (cs : List Nat) (acc : Nat)
    (hc : ∀ c ∈ cs, 48 ≤ c ∧ c ≤ 57) (hv : valueFold acc cs < 2 ^ 256) :
    fromDecStrGo acc cs = .ok (valueFold acc cs) := by
  induction cs generalizing acc with
  | nil => rfl
  | cons c cs ih =>
    obtain ⟨h1, h2⟩ := hc c (List.mem_cons_self c cs)
    rw [valueFold_cons] at hv ⊢
    have hnext : acc * 10 + (c - 48) ≤ valueFold (acc * 10 + (c - 48)) cs :=
      valueFold_ge cs _
    rw [fromDecStrGo, if_neg (by omega), if_neg (by omega)]
    exact ih _ (fun d hd => hc d (List.mem_cons_of_mem c hd)) hv

theorem fromDecStrGo_overflow (cs : List Nat) (acc : Nat)
    (hacc : acc < 2 ^ 256) (hv : 2 ^ 256 ≤ valueFold acc cs)
    (hc : ∀ c ∈ cs, 48 ≤ c ∧ c ≤ 57) :
    fromDecStrGo acc cs = .error (.err "invalid length") := by
  induction cs generalizing acc with
  | nil => rw [valueFold_nil] at hv; omega
  | cons c cs ih =>
    obtain ⟨h1, h2⟩ := hc c (List.mem_cons_self c cs)
    rw [valueFold_cons] at hv
    rw [fromDecStrGo, if_neg (by omega)]
    by_cases hnext : 2 ^ 256 ≤ acc * 10 + (c - 48)
    · rw [if_pos hnext]
    · rw [if_neg hnext]
      exact ih _ (by omega) hv (fun d hd => hc d (List.mem_cons_of_mem c hd))

theorem valueFold_map_digits (l : List Nat) (acc : Nat) :
    valueFold acc ((l.map (fun d => d + 48)).reverse)
      = acc * 10 ^ l.length + Nat.ofDigits 10 l := by
  induction l generalizing acc with
  | nil => simp [valueFold, Nat.ofDigits]
  | cons d ds ih =>
    have hfold : valueFold acc (((d :: ds).map (fun d => d + 48)).reverse)
        = valueFold acc ((ds.map (fun d => d + 48)).reverse) * 10 + d := by
      simp [valueFold, List.foldl_append]
    rw [hfold, ih, Nat.ofDigits_cons, List.length_cons, pow_succ]
    ring

theorem decDigitsGo_eq_digits (fuel n : Nat) (h : n ≤ fuel) :
    decDigitsGo fuel n = Nat.digits 10 n := by
  induction fuel generalizing n with
  | zero =>
    interval_cases n
    simp [decDigitsGo]
  | succ fuel ih =>
    cases n with
    | zero => simp [decDigitsGo]
    | succ n =>
      rw [decDigitsGo, Nat.digits_def' (by norm_num) (Nat.succ_pos n),
        ih _ (by have := Nat.div_lt_self (Nat.succ_pos n) (show 1 < 10 by norm_num); omega)]

theorem decChars_digits (n : Nat) :
    decChars n = if n = 0 then [48]
      else (Nat.digits 10 n).reverse.map (fun d => d + 48) := by
  by_cases h : n = 0
  · simp [decChars, h]
  · rw [decChars, if_neg h, if_neg h, decDigitsGo_eq_digits n n (Nat.le_refl n)]

theorem valueFold_decChars (n : Nat) : valueFold 0 (decChars n) = n := by
  by_cases h : n = 0
  · subst h; rfl
  · rw [decChars_digits, if_neg h, List.map_reverse, valueFold_map_digits,
      Nat.ofDigits_digits, Nat.zero_mul, Nat.zero_add]

theorem decChars_bounds (n : Nat) : ∀ c ∈ decChars n, 48 ≤ c ∧ c ≤ 57 := by
  intro c hc
  rw [decChars_digits] at hc
  split at hc
  · simp at hc; omega
  · simp only [List.mem_map, List.mem_reverse] at hc
    obtain ⟨d, hd, rfl⟩ := hc
    have := Nat.digits_lt_base (by norm_num) hd
    omega

theorem from_dec_str_decChars (v : Nat) (h : v < 2 ^ 256) :
    from_dec_str (decChars v) = .ok v := by
  rw [from_dec_str, fromDecStrGo_ok _ _ (decChars_bounds v)
    (by rw [valueFold_decChars]; exact h), valueFold_decChars]

theorem bigNatFromDecGo_ok (cs : List Nat) (acc : Nat)
    (hc : ∀ c ∈ cs, 48 ≤ c ∧ c ≤ 57) :
    bigNatFromDecGo acc cs = .ok (valueFold acc cs) := by
  induction cs generalizing acc with
  | nil => rfl
  | cons c cs ih =>
    obtain ⟨h1, h2⟩ := hc c (List.mem_cons_self c cs)
    rw [valueFold_cons, bigNatFromDecGo, if_neg (by omega)]
    exact ih _ (fun d hd => hc d (List.mem_cons_of_mem c hd))

theorem decChars_ne_nil (n : Nat) : decChars n ≠ [] := by
  rw [decChars_digits]
  split
  · simp
  · simp [Nat.digits_ne_nil_iff_ne_zero, *]

theorem eth_to_fil_amount_decimal (v : Nat) : eth_to_fil_amount v = .ok ((v : Int)) := by
  rw [eth_to_fil_amount]
  cases h : decChars v with
  | nil => exact absurd h (decChars_ne_nil v)
  | cons c cs =>
    have hc : 48 ≤ c ∧ c ≤ 57 := decChars_bounds v c (h ▸ List.mem_cons_self c cs)
    rw [bigIntFromDecChars, if_neg (by omega), ← h,
      bigNatFromDecGo_ok _ _ (decChars_bounds v), valueFold_decChars]
    rfl

/-- C4: every non-negative smallest-unit amount strictly below `2 ^ 256`
converts to a 256-bit integer and back to the identical amount
(`fil_to_eth_amount` then `eth_to_fil_amount`), and `fil_to_eth_amount`
fails with the overflow error for every amount of `2 ^ 256` or more. -/
theorem amount_roundtrip_and_overflow (v : Nat) :
    (v < 2 ^ 256 →
      (fil_to_eth_amount ((v : Nat) : Int) >>= eth_to_fil_amount) = .ok ((v : Int))) ∧
    (2 ^ 256 ≤ v →
      fil_to_eth_amount ((v : Nat) : Int) = .error (.err "invalid length")) := by
  have hchars : intDecChars ((v : Nat) : Int) = decChars v := by
    rw [intDecChars, if_neg (by exact not_lt.mpr (Int.natCast_nonneg v)),
      Int.toNat_natCast]
  constructor
  · intro h
    rw [fil_to_eth_amount, hchars, from_dec_str_decChars v h, ok_bind,
      eth_to_fil_amount_decimal]
  · intro h
    rw [fil_to_eth_amount, hchars, from_dec_str]
    exact fromDecStrGo_overflow _ _ (by norm_num)
      (by rw [valueFold_decChars]; exact h) (decChars_bounds v)

/-- C4 witness: the spec's amount vector, smallest-unit amount
100000000000000, round-trips exactly. -/
theorem amount_roundtrip_vector :
    (100000000000000 : Nat) < 2 ^ 256 ∧
    (fil_to_eth_amount ((100000000000000 : Nat) : Int) >>= eth_to_fil_amount)
      = .ok (((100000000000000 : Nat) : Int)) :=
  ⟨by norm_num, (amount_roundtrip_and_overflow 100000000000000).1 (by norm_num)⟩


theorem bind_eq_ok {α β : Type} {a : Except ConvError α}
    {f : α → Except ConvError β} {b : β} :
    (a >>= f) = .ok b ↔ ∃ x, a = .ok x ∧ f x = .ok b := by
  cases a with
  | ok v => simp [ok_bind]
  | error e => simp [error_bind]

/-- C5: converting a native cross message to the Runtime B form maps the
64-bit method number to its low 32 bits as a 4-byte big-endian tag, and for
method numbers below `2 ^ 32` the there-and-back method conversion is the
identity. -/
theorem method_number_truncation (m : StorableMsg) (e : EvmStorableMsg)
    (hconv : nativeStorableMsgToEvm m = .ok e) :
    e.method = natToBeBytes 4 (m.method % 2 ^ 32) ∧
    (m.method < 2 ^ 32 → ∀ m' : StorableMsg,
      evmStorableMsgToNative e = .ok m' → m'.method = m.method) := by
  simp only [nativeStorableMsgToEvm, bind_eq_ok] at hconv
  obtain ⟨mv, hmv, fr, hfr, t, ht, hconv⟩ := hconv
  obtain rfl : _ = e := (Except.ok.injEq _ _).mp hconv
  refine ⟨rfl, fun hm m' hconv' => ?_⟩
  simp only [evmStorableMsgToNative, bind_eq_ok] at hconv'
  obtain ⟨fr', hfr', t', ht', v', hv', hconv'⟩ := hconv'
  obtain rfl : _ = m' := (Except.ok.injEq _ _).mp hconv'
  show beToNat (natToBeBytes 4 (m.method % 2 ^ 32)) = m.method
  rw [beToNat_natToBeBytes]
  have h4 : (256 : Nat) ^ 4 = 2 ^ 32 := by norm_num
  rw [h4]
  omega


/-- C5 witness: the concrete message `msgV` (method 7) converts to the
4-byte big-endian tag `[0,0,0,7]` and back to method 7. -/
theorem method_number_truncation_witness :
    nativeStorableMsgToEvm msgV = .ok msgVEvm ∧
    msgVEvm.method = natToBeBytes 4 (msgV.method % 2 ^ 32) ∧
    evmStorableMsgToNative msgVEvm = .ok msgVBack ∧
    msgVBack.method = msgV.method :=
  have h1 : nativeStorableMsgToEvm msgV = .ok msgVEvm := by rfl
  have h2 : evmStorableMsgToNative msgVEvm = .ok msgVBack := by rfl
  ⟨h1, (method_number_truncation msgV msgVEvm h1).1, h2,
    (method_number_truncation msgV msgVEvm h1).2 (by decide) msgVBack h2⟩

/-- C10: whenever the Runtime B to native checkpoint conversion succeeds, it
produces `proof = some ...` and `prev_check = some ...` (never `none`, even
for empty proof bytes or an all-zero previous hash) and an empty
signature. -/
theorem evm_to_native_always_some (v : EvmBottomUpCheckpoint)
    (c : NativeBottomUpCheckpoint) (hconv : evmCheckpointToNative v = .ok c) :
    c.proof = some v.proof ∧ c.prev_check = some v.prev_hash ∧ c.sig = [] := by
  simp only [evmCheckpointToNative, bind_eq_ok] at hconv
  obtain ⟨ch, hch, cm, hcm, src, hsrc, fee, hfee, hconv⟩ := hconv
  obtain rfl : _ = c := (Except.ok.injEq _ _).mp hconv
  exact ⟨rfl, rfl, rfl⟩

/-- C10 witness: the concrete EVM checkpoint `trivialEvm`, whose previous
hash is all-zero, still converts to `some` fields and an empty signature. -/
theorem evm_to_native_always_some_witness :
    evmCheckpointToNative trivialEvm = .ok trivialEvmBack ∧
    trivialEvmBack.proof = some trivialEvm.proof ∧
    trivialEvmBack.prev_check = some trivialEvm.prev_hash ∧
    trivialEvmBack.sig = [] :=
  have h : evmCheckpointToNative trivialEvm = .ok trivialEvmBack := by rfl
  ⟨h, evm_to_native_always_some trivialEvm trivialEvmBack h⟩

/-- C7 counterexample: a native checkpoint whose present previous-checkpoint
reference is 31 bytes long makes the native-to-EVM conversion panic in
`copy_from_slice` instead of mapping the present value to its contents, so
the claim fails as stated for every native checkpoint. -/
theorem present_prev_check_short_panics :
    nativeCheckpointToEvm shortPrevCheckpoint = .error .panicked := by rfl

/-- C7 amended: whenever the native-to-EVM checkpoint conversion succeeds
(which requires a present `prev_check` to be exactly 32 bytes; a present
reference of any other length panics), an absent proof becomes the empty
byte string, an absent previous-checkpoint reference becomes the all-zero
32-byte hash, and present values map to their actual contents. -/
theorem checkpoint_optional_fields (cp : NativeBottomUpCheckpoint)
    (r : EvmBottomUpCheckpoint) (hconv : nativeCheckpointToEvm cp = .ok r) :
    r.proof = cp.proof.getD [] ∧
    r.prev_hash = cp.prev_check.getD (List.replicate 32 0) := by
  simp only [nativeCheckpointToEvm, bind_eq_ok] at hconv
  obtain ⟨cm, hcm, ch, hch, ph, hph, src, hsrc, fee, hfee, hconv⟩ := hconv
  obtain rfl : _ = r := (Except.ok.injEq _ _).mp hconv
  refine ⟨rfl, ?_⟩
  show ph = cp.prev_check.getD (List.replicate 32 0)
  cases hpc : cp.prev_check with
  | none =>
    rw [hpc, prevHashBytes] at hph
    exact ((Except.ok.injEq _ _).mp hph).symm
  | some v =>
    rw [hpc, prevHashBytes] at hph
    by_cases hl : v.length = 32
    · rw [if_pos hl] at hph
      exact ((Except.ok.injEq _ _).mp hph).symm
    · rw [if_neg hl] at hph
      exact absurd hph (by simp)

/-- C7 witness: a checkpoint with a present proof `[1, 2]` and a present
32-byte previous reference converts with both contents preserved. -/
theorem checkpoint_optional_fields_witness :
    nativeCheckpointToEvm goodPrevCheckpoint = .ok goodPrevEvm ∧
    goodPrevEvm.proof = goodPrevCheckpoint.proof.getD [] ∧
    goodPrevEvm.prev_hash = goodPrevCheckpoint.prev_check.getD (List.replicate 32 0) :=
  have h : nativeCheckpointToEvm goodPrevCheckpoint = .ok goodPrevEvm := by rfl
  ⟨h, checkpoint_optional_fields goodPrevCheckpoint goodPrevEvm h⟩

/-- C1: the fee round trip fails on the checkpoint with fee 10 atto — the
native-to-EVM conversion parses the decimal string "10" with the HEX
`U256::from_str`, yielding 16, so the round trip returns fee 16, not 10 (and
for fees of `2 ^ 128` or more the EVM-to-native `as_u128` panics).  This
evaluates the code at the failing input of the code-bug report. -/
theorem checkpoint_fee_roundtrip_bug :
    feeTenCheckpoint.cross_msgs.fee = 10 ∧
    (nativeCheckpointToEvm feeTenCheckpoint).map (fun c => c.fee) = .ok 16 ∧
    ((nativeCheckpointToEvm feeTenCheckpoint >>= evmCheckpointToNative).map
      (fun c => c.cross_msgs.fee)) = .ok 16 :=
  ⟨rfl, rfl, rfl⟩

/-- C2: a 1-byte child-check hash makes the conversion panic — the
zero-initialized buffer is filled with `copy_from_slice`, which panics when
the source slice is shorter than 32 bytes, contradicting the claimed
zero-padding behaviour.  This evaluates the code at the failing input of the
code-bug report. -/
theorem short_child_check_hash_panics :
    vec_to_array [170] = .error .panicked ∧
    nativeChildCheckToEvm shortHashChildCheck = .error .panicked :=
  ⟨rfl, rfl⟩

/-- C8: `should_submit_in_epoch` returns exactly the negation of the parent
handler's vote-membership answer for the child subnet at that epoch, and
fails exactly when the vote-membership query fails. -/
theorem should_submit_negates_has_voted (mgr : BottomUpManager)
    (validator : Payload) (epoch : Int) :
    (∀ b : Bool, mgr.should_submit_in_epoch validator epoch = .ok b ↔
      mgr.parent_handler.has_voted mgr.childId epoch validator = .ok (!b)) ∧
    ((∃ e, mgr.should_submit_in_epoch validator epoch = .error e) ↔
      (∃ e, mgr.parent_handler.has_voted mgr.childId epoch validator = .error e)) := by
  cases h : mgr.parent_handler.has_voted mgr.childId epoch validator with
  | ok hv =>
    constructor
    · intro b
      simp only [BottomUpManager.should_submit_in_epoch, h]
      cases hv <;> cases b <;> simp
    · simp only [BottomUpManager.should_submit_in_epoch, h]
      simp
  | error e =>
    constructor
    · intro b
      simp only [BottomUpManager.should_submit_in_epoch, h]
      simp
    · simp only [BottomUpManager.should_submit_in_epoch, h]
      constructor
      · intro _
        exact ⟨e, rfl⟩
      · intro _
        exact ⟨.wrap "cannot check if validator has voted in epoch" e, rfl⟩

/-- C8 witness: over the concrete manager whose handler reports no vote,
`should_submit_in_epoch` answers true. -/
theorem should_submit_negates_has_voted_witness :
    okManager.should_submit_in_epoch secpAddr 5 = .ok true ∧
    okManager.parent_handler.has_voted okManager.childId 5 secpAddr = .ok false :=
  ⟨((should_submit_negates_has_voted okManager secpAddr 5).1 true).mpr (by rfl),
    by rfl⟩

/-- C9: `submit_checkpoint` performs exactly the four steps in order —
child-side `checkpoint_template`, child-side `populate_proof`, parent-side
`populate_prev_hash` with the child subnet identity and `epoch - period`,
parent-side `submit` — and a failing step returns that step's error (the
submit error wrapped with its stage message) without any later call and
without retrying, as witnessed by the exact call trace. -/
theorem submit_checkpoint_stages (mgr : BottomUpManager) (epoch : Int)
    (validator : Payload) :
    (∀ e, mgr.child_handler.checkpoint_template epoch = .error e →
      mgr.submit_checkpoint epoch validator = (.error e, [.templateCall epoch])) ∧
    (∀ t e, mgr.child_handler.checkpoint_template epoch = .ok t →
      mgr.child_handler.populate_proof t = .error e →
      mgr.submit_checkpoint epoch validator =
        (.error e, [.templateCall epoch, .proofCall t])) ∧
    (∀ t t2 e, mgr.child_handler.checkpoint_template epoch = .ok t →
      mgr.child_handler.populate_proof t = .ok t2 →
      mgr.parent_handler.populate_prev_hash t2 mgr.childId (epoch - mgr.period) = .error e →
      mgr.submit_checkpoint epoch validator =
        (.error e, [.templateCall epoch, .proofCall t,
          .prevHashCall t2 mgr.childId (epoch - mgr.period)])) ∧
    (∀ t t2 t3 e, mgr.child_handler.checkpoint_template epoch = .ok t →
      mgr.child_handler.populate_proof t = .ok t2 →
      mgr.parent_handler.populate_prev_hash t2 mgr.childId (epoch - mgr.period) = .ok t3 →
      mgr.parent_handler.submit validator t3 = .error e →
      mgr.submit_checkpoint epoch validator =
        (.error (.wrap "cannot submit bottom up checkpoint" e),
         [.templateCall epoch, .proofCall t,
          .prevHashCall t2 mgr.childId (epoch - mgr.period),
          .submitCall validator t3])) ∧
    (∀ t t2 t3 n, mgr.child_handler.checkpoint_template epoch = .ok t →
      mgr.child_handler.populate_proof t = .ok t2 →
      mgr.parent_handler.populate_prev_hash t2 mgr.childId (epoch - mgr.period) = .ok t3 →
      mgr.parent_handler.submit validator t3 = .ok n →
      mgr.submit_checkpoint epoch validator =
        (.ok (), [.templateCall epoch, .proofCall t,
          .prevHashCall t2 mgr.childId (epoch - mgr.period),
          .submitCall validator t3])) := by
  refine ⟨?_, ?_, ?_, ?_, ?_⟩
  · intro e h1
    simp only [BottomUpManager.submit_checkpoint, h1]
  · intro t e h1 h2
    simp only [BottomUpManager.submit_checkpoint, h1, h2]
  · intro t t2 e h1 h2 h3
    simp only [BottomUpManager.submit_checkpoint, h1, h2, h3]
  · intro t t2 t3 e h1 h2 h3 h4
    simp only [BottomUpManager.submit_checkpoint, h1, h2, h3, h4]
  · intro t t2 t3 n h1 h2 h3 h4
    simp only [BottomUpManager.submit_checkpoint, h1, h2, h3, h4]

/-- C9 witness: over the all-success concrete manager with period 100,
submitting at epoch 100 succeeds with exactly the four calls in order, the
prev-hash call receiving `100 - 100`. -/
theorem submit_checkpoint_stages_witness :
    okManager.submit_checkpoint 100 secpAddr = (.ok (),
      [.templateCall 100, .proofCall trivialNative,
       .prevHashCall trivialNative okManager.childId (100 - okManager.period),
       .submitCall secpAddr trivialNative]) :=
  (submit_checkpoint_stages okManager 100 secpAddr).2.2.2.2
    trivialNative trivialNative trivialNative 0 rfl rfl rfl rfl

end IpcAgent
